import Mathlib

/-!
Verification of the sector-transcoding core of `conv_cueiso.py`
(CUE/BIN ↔ ISO converter for single-track MODE1 data discs).

Shallow embedding conventions:
* a byte stream (file contents) is a `List Nat`;
* a text line is a `List Char`; a text file is a `List (List Char)`;
* the `while True: read(n)` loop over a regular file is modelled by
  `chunks`, which cuts the stream into pieces of `n` bytes with a
  possibly shorter final piece (a read at end-of-file yields nothing);
* Python slicing `s[a:b]` is `pySlice`, Python bytearray slice
  assignment `s[a:b] = v` (which resizes the array when `v` has a
  different length) is `pySliceAssign`;
* `error(...)`/`sys.exit(1)` paths are `Except`/`Option Err` results;
  the uncaught `IndexError` that `line.split('"')[1]` can raise is the
  dedicated constructor `Err.pythonIndexError`;
* file-system effects are passed explicitly: a destination file is
  `Option (List Nat)` (`none` = does not exist), and each converter
  returns the error (if any) together with the final destination state.
-/

namespace ConvCueIso

abbrev SECTOR_2352 : Nat := 2352
abbrev SECTOR_2048 : Nat := 2048
abbrev DATA_OFFSET_2352 : Nat := 16

/-- Python slice `l[a:b]` (with the usual clamping). -/
def pySlice (l : List Nat) (a b : Nat) : List Nat :=
  (l.drop a).take (b - a)

/-- Python bytearray slice assignment `l[a:b] = v`: the region `[a,b)` is
replaced by `v`, resizing the array when `v.length ≠ b - a`. -/
def pySliceAssign (l : List Nat) (a b : Nat) (v : List Nat) : List Nat :=
  l.take a ++ v ++ l.drop b

/-- The `while True: chunk = f.read(s)` loop, fuelled (each iteration with a
non-empty remainder consumes at least one byte once `0 < s`, so
`l.length` fuel is enough). -/
def readLoop (s : Nat) : Nat → List Nat → List (List Nat)
  | 0, _ => []
  | fuel + 1, l => if l.isEmpty then [] else l.take s :: readLoop s fuel (l.drop s)

/-- The successive chunks delivered by `f.read(s)` on a stream `l`:
pieces of `s` bytes, the final one possibly shorter. -/
def chunks (s : Nat) (l : List Nat) : List (List Nat) :=
  readLoop s l.length l

/-- `sector[DATA_OFFSET_2352 : DATA_OFFSET_2352 + SECTOR_2048]`, the
payload extraction in `bin_to_iso`. -/
def rawToUserChunk (sector : List Nat) : List Nat :=
  pySlice sector DATA_OFFSET_2352 (DATA_OFFSET_2352 + SECTOR_2048)

/-- The byte transformation of `bin_to_iso`: read `sector_size`-byte
chunks; copy the payload slice for raw 2352 sectors and the whole chunk
otherwise. -/
def bin_to_iso_bytes (sectorSize : Nat) (src : List Nat) : List Nat :=
  ((chunks sectorSize src).map
    (fun sector => if sectorSize = SECTOR_2352 then rawToUserChunk sector else sector)).flatten

/-- One loop body of `iso_to_bin`: `sector = bytearray(2352);
sector[16:16+2048] = data`. -/
def userToRawChunk (data : List Nat) : List Nat :=
  pySliceAssign (List.replicate SECTOR_2352 0) DATA_OFFSET_2352
    (DATA_OFFSET_2352 + SECTOR_2048) data

/-- The byte transformation of `iso_to_bin`: read 2048-byte chunks and
write one synthesized frame per chunk, in source order. -/
def iso_to_bin_bytes (src : List Nat) : List Nat :=
  ((chunks SECTOR_2048 src).map userToRawChunk).flatten

/-- Error outcomes of the script (each `error(...)` call site), plus the
uncaught `IndexError` a quoteless FILE line triggers. -/
inductive Err where
  | destinationExists
  | abortedByUser
  | invalidCue
  | unsupportedTrack
  | unsupportedSectorMode
  | pythonIndexError
  deriving DecidableEq

/-- `ask_overwrite`: the interactive y/n loop, abstracted by the answer
the user eventually gives. -/
def ask_overwrite (answer : Bool) : Bool := answer

/-- `check_overwrite(path, force, ask)`, with the path's existence and
the interactive answer passed explicitly. -/
def check_overwrite (ex : Bool) (force ask answer : Bool) : Except Err Unit :=
  if !ex then .ok ()
  else if force then .ok ()
  else if ask then
    if ask_overwrite answer then .ok () else .error .abortedByUser
  else .error .destinationExists

/-- `bin_to_iso` with the file system explicit: the overwrite check runs
first; only when it passes is the destination opened and (re)written.
Returns (error if any, final destination contents). -/
def bin_to_iso_run (src : List Nat) (sectorSize : Nat) (destOld : Option (List Nat))
    (force ask answer : Bool) : Option Err × Option (List Nat) :=
  match check_overwrite destOld.isSome force ask answer with
  | .error e => (some e, destOld)
  | .ok _ => (none, some (bin_to_iso_bytes sectorSize src))

/-- The CUE text `iso_to_bin` writes:
`FILE "<name>" BINARY\n  TRACK 01 MODE1/2352\n    INDEX 01 00:00:00\n`. -/
def cueText (binName : List Char) : List Char :=
  ("FILE \"".toList) ++ binName ++
    ("\" BINARY\n  TRACK 01 MODE1/2352\n    INDEX 01 00:00:00\n".toList)

/-- `iso_to_bin` with the file system explicit: both overwrite checks
run before any write; on success the BIN stream and companion CUE sheet
are written. Returns (error if any, final BIN contents, final CUE
contents). -/
def iso_to_bin_run (src : List Nat) (binName : List Char)
    (binOld : Option (List Nat)) (cueOld : Option (List Char))
    (force ask answer : Bool) :
    Option Err × Option (List Nat) × Option (List Char) :=
  match check_overwrite binOld.isSome force ask answer with
  | .error e => (some e, binOld, cueOld)
  | .ok _ =>
    match check_overwrite cueOld.isSome force ask answer with
    | .error e => (some e, binOld, cueOld)
    | .ok _ => (none, some (iso_to_bin_bytes src), some (cueText binName))

/-- ASCII `str.upper` on one character (the CUE keywords and names in
play are ASCII). -/
def pyUpperChar (c : Char) : Char :=
  if 'a' ≤ c ∧ c ≤ 'z' then Char.ofNat (c.toNat - 32) else c

/-- Python `str.strip()`: whitespace removed from both ends. -/
def pyStrip (l : List Char) : List Char :=
  ((l.dropWhile Char.isWhitespace).reverse.dropWhile Char.isWhitespace).reverse

/-- `line.strip().upper()`, the normalisation `parse_cue` applies to
every line before inspecting it. -/
def pyLine (l : List Char) : List Char :=
  (pyStrip l).map pyUpperChar

/-- Python `s.startswith(p)` on character lists (pattern first). -/
def startsWithL : List Char → List Char → Bool
  | [], _ => true
  | _ :: _, [] => false
  | p :: ps, c :: cs => if p = c then startsWithL ps cs else false

/-- Python `s.split(sep)` for a one-character separator: the pieces
between occurrences of `sep`, empty pieces included. -/
def splitOnChar (sep : Char) : List Char → List (List Char)
  | [] => [[]]
  | c :: cs =>
    if c = sep then [] :: splitOnChar sep cs
    else
      match splitOnChar sep cs with
      | [] => [[c]]
      | h :: t => (c :: h) :: t

/-- Python `pat in s` (substring membership). -/
def containsSubL (pat : List Char) : List Char → Bool
  | [] => pat.isEmpty
  | c :: cs => startsWithL pat (c :: cs) || containsSubL pat cs

/-- The two slots `parse_cue` fills while scanning: `bin_file` and
`mode` (both `None` initially). -/
abbrev ParseState := Option (List Char) × Option Nat

/-- One iteration of `parse_cue`'s line loop. A FILE line takes
`line.split('"')[1]` — `Err.pythonIndexError` when the uppercased line
has no `"`; a TRACK line fails on AUDIO, then matches the mode
substrings; other lines are ignored. -/
def procLine (st : ParseState) (raw : List Char) : Except Err ParseState :=
  let line := pyLine raw
  if startsWithL ("FILE".toList) line then
    match (splitOnChar '"' line).get? 1 with
    | some name => .ok (some name, st.2)
    | none => .error .pythonIndexError
  else if startsWithL ("TRACK".toList) line then
    if containsSubL ("AUDIO".toList) line then .error .unsupportedTrack
    else if containsSubL ("MODE1/2352".toList) line then .ok (st.1, some SECTOR_2352)
    else if containsSubL ("MODE1/2048".toList) line then .ok (st.1, some SECTOR_2048)
    else .error .unsupportedSectorMode
  else .ok st

/-- The line loop of `parse_cue`. -/
def scanLines : ParseState → List (List Char) → Except Err ParseState
  | st, [] => .ok st
  | st, l :: ls =>
    match procLine st l with
    | .error e => .error e
    | .ok st2 => scanLines st2 ls

/-- `parse_cue`: scan all lines, then fail with `invalidCue` when either
slot is still unset (or the file name is falsy, i.e. empty). -/
def parse_cue (lines : List (List Char)) : Except Err (List Char × Nat) :=
  match scanLines (none, none) lines with
  | .error e => .error e
  | .ok (some b, some m) => if b.isEmpty then .error .invalidCue else .ok (b, m)
  | .ok _ => .error .invalidCue

/-- The lines of a text blob (pieces between newline characters). -/
def linesOfText (t : List Char) : List (List Char) :=
  splitOnChar '\n' t

/-! ## Basic facts about the read loop -/

theorem readLoop_fuel (s : Nat) (hs : 0 < s) :
    ∀ f1 f2 (l : List Nat), l.length ≤ f1 → l.length ≤ f2 →
      readLoop s f1 l = readLoop s f2 l := by
  intro f1
  induction f1 with
  | zero =>
    intro f2 l h1 _
    have hl : l = [] := List.eq_nil_of_length_eq_zero (Nat.le_zero.mp h1)
    subst hl
    cases f2 <;> simp [readLoop]
  | succ f ih =>
    intro f2 l h1 h2
    cases l with
    | nil => cases f2 <;> simp [readLoop]
    | cons x xs =>
      cases f2 with
      | zero => simp at h2
      | succ g =>
        simp only [readLoop, List.isEmpty_cons, if_neg]
        have hlen : ((x :: xs).drop s).length ≤ f := by
          simp only [List.length_drop, List.length_cons]
          simp only [List.length_cons] at h1
          omega
        have hlen2 : ((x :: xs).drop s).length ≤ g := by
          simp only [List.length_drop, List.length_cons]
          simp only [List.length_cons] at h2
          omega
        rw [ih g _ hlen hlen2]

theorem chunks_nil (s : Nat) : chunks s [] = [] := rfl

theorem chunks_cons (s : Nat) (hs : 0 < s) (l : List Nat) (hl : l ≠ []) :
    chunks s l = l.take s :: chunks s (l.drop s) := by
  cases l with
  | nil => exact absurd rfl hl
  | cons x xs =>
    show readLoop s (xs.length + 1) (x :: xs) = _
    simp only [readLoop, List.isEmpty_cons, Bool.false_eq_true, if_false]
    congr 1
    exact readLoop_fuel s hs xs.length ((x :: xs).drop s).length ((x :: xs).drop s)
      (by simp only [List.length_drop, List.length_cons]; omega) (le_refl _)

/-- A full-length head chunk: reading `s` bytes from `a ++ b` with
`a.length = s` delivers `a` and leaves `b`. -/
theorem chunks_append_full (s : Nat) (hs : 0 < s) (a b : List Nat) (ha : a.length = s) :
    chunks s (a ++ b) = a :: chunks s b := by
  have hne : a ++ b ≠ [] := by
    intro h
    rcases List.append_eq_nil.mp h with ⟨h1, _⟩
    subst h1
    simp at ha
    omega
  rw [chunks_cons s hs _ hne]
  congr 1
  · rw [← ha, List.take_left]
  · rw [← ha, List.drop_left]

/-- A short final chunk: a non-empty stream of at most `s` bytes is
delivered whole as the last chunk. -/
theorem chunks_short (s : Nat) (l : List Nat) (hl : l ≠ []) (hs : l.length ≤ s) :
    chunks s l = [l] := by
  have hpos : 0 < s := by
    have := List.length_pos.mpr hl
    omega
  rw [chunks_cons s hpos l hl, List.take_of_length_le hs, List.drop_eq_nil_of_le hs, chunks_nil]

/-- The chunks exactly partition the stream: nothing is dropped or
re-ordered, the short final chunk included. -/
theorem flatten_chunks_of_le (s : Nat) (hs : 0 < s) :
    ∀ (n : Nat) (l : List Nat), l.length ≤ n → (chunks s l).flatten = l := by
  intro n
  induction n with
  | zero =>
    intro l h
    have : l = [] := List.eq_nil_of_length_eq_zero (Nat.le_zero.mp h)
    subst this
    rfl
  | succ n ih =>
    intro l h
    rcases eq_or_ne l [] with hl | hl
    · subst hl; rfl
    · rw [chunks_cons s hs l hl]
      simp only [List.flatten_cons]
      rw [ih (l.drop s) (by simp only [List.length_drop]; have := List.length_pos.mpr hl; omega)]
      exact List.take_append_drop s l

theorem flatten_chunks (s : Nat) (hs : 0 < s) (l : List Nat) :
    (chunks s l).flatten = l :=
  flatten_chunks_of_le s hs l.length l (le_refl _)

/-! ## Unfolding the converters one sector at a time -/

theorem bin_to_iso_bytes_nil : bin_to_iso_bytes 2352 [] = [] := rfl

theorem bin_to_iso_bytes_cons (src : List Nat) (h : src ≠ []) :
    bin_to_iso_bytes 2352 src =
      rawToUserChunk (src.take 2352) ++ bin_to_iso_bytes 2352 (src.drop 2352) := by
  unfold bin_to_iso_bytes
  rw [chunks_cons 2352 (by norm_num) src h, List.map_cons, List.flatten_cons, if_pos rfl]

theorem iso_to_bin_bytes_nil : iso_to_bin_bytes [] = [] := rfl

theorem iso_to_bin_bytes_cons (src : List Nat) (h : src ≠ []) :
    iso_to_bin_bytes src =
      userToRawChunk (src.take 2048) ++ iso_to_bin_bytes (src.drop 2048) := by
  unfold iso_to_bin_bytes
  rw [chunks_cons 2048 (by norm_num) src h, List.map_cons, List.flatten_cons]

/-- `bytearray(2352)` with `data` assigned to the slice `[16, 2064)`:
16 zero bytes, then `data` whole (whatever its length, Python resizes),
then the 288 bytes past the slice. -/
theorem userToRawChunk_eq (data : List Nat) :
    userToRawChunk data = List.replicate 16 0 ++ data ++ List.replicate 288 0 := by
  unfold userToRawChunk pySliceAssign
  rw [List.take_replicate, List.drop_replicate]
  norm_num

theorem userToRawChunk_length (data : List Nat) :
    (userToRawChunk data).length = 304 + data.length := by
  rw [userToRawChunk_eq]
  simp only [List.length_append, List.length_replicate]
  omega

/-- The payload slice of a full raw sector has exactly 2048 bytes. -/
theorem rawToUserChunk_length (sector : List Nat) (h : 2064 ≤ sector.length) :
    (rawToUserChunk sector).length = 2048 := by
  unfold rawToUserChunk pySlice SECTOR_2048 DATA_OFFSET_2352
  simp only [List.length_take, List.length_drop]
  omega

/-! ## C1: raw → user transcoding of complete sectors -/

/-- **C1.** For a source of exactly `N` complete 2352-byte raw sectors,
`bin_to_iso` with sector size 2352 produces exactly `N * 2048` bytes, and
for every `k < N` the output byte range `[k*2048, (k+1)*2048)` equals the
input byte range `[k*2352+16, k*2352+16+2048)`. -/
theorem rawToUser_full_sectors (N : Nat) :
    ∀ src : List Nat, src.length = N * 2352 →
      (bin_to_iso_bytes 2352 src).length = N * 2048 ∧
      ∀ k, k < N →
        ((bin_to_iso_bytes 2352 src).drop (k * 2048)).take 2048 =
          (src.drop (k * 2352 + 16)).take 2048 := by
  induction N with
  | zero =>
    intro src h
    have hnil : src = [] := List.eq_nil_of_length_eq_zero (by omega)
    subst hnil
    exact ⟨rfl, fun k hk => absurd hk (Nat.not_lt_zero k)⟩
  | succ N ih =>
    intro src h
    have hne : src ≠ [] := by
      intro hnil
      rw [hnil] at h
      simp only [List.length_nil] at h
      omega
    have hdroplen : (src.drop 2352).length = N * 2352 := by
      simp only [List.length_drop]
      omega
    obtain ⟨ihlen, ihslice⟩ := ih (src.drop 2352) hdroplen
    have hAval : rawToUserChunk (src.take 2352) = (src.drop 16).take 2048 := by
      unfold rawToUserChunk pySlice
      rw [List.drop_take, List.take_take]
      norm_num
    have hAlen : (rawToUserChunk (src.take 2352)).length = 2048 := by
      apply rawToUserChunk_length
      rw [List.length_take]
      omega
    rw [bin_to_iso_bytes_cons src hne]
    constructor
    · rw [List.length_append, hAlen, ihlen]
      ring
    · intro k hk
      cases k with
      | zero =>
        have htake : (rawToUserChunk (src.take 2352) ++ bin_to_iso_bytes 2352 (src.drop 2352)).take 2048 =
            rawToUserChunk (src.take 2352) := by
          have h0 := List.take_left (rawToUserChunk (src.take 2352)) (bin_to_iso_bytes 2352 (src.drop 2352))
          rw [hAlen] at h0
          exact h0
        simp only [Nat.zero_mul, List.drop_zero, Nat.zero_add]
        rw [htake, hAval]
      | succ k =>
        have hdropapp : (rawToUserChunk (src.take 2352) ++ bin_to_iso_bytes 2352 (src.drop 2352)).drop ((k + 1) * 2048) =
            (bin_to_iso_bytes 2352 (src.drop 2352)).drop (k * 2048) := by
          have h0 : (rawToUserChunk (src.take 2352) ++
              bin_to_iso_bytes 2352 (src.drop 2352)).drop
                ((rawToUserChunk (src.take 2352)).length + k * 2048) =
              (bin_to_iso_bytes 2352 (src.drop 2352)).drop (k * 2048) :=
            List.drop_append (k * 2048)
          rw [hAlen] at h0
          rw [← h0]
          congr 1
          ring
        rw [hdropapp, ihslice k (by omega), List.drop_drop]
        congr 2
        ring

/-- Witness for C1 at `N = 1` on a concrete one-sector source. -/
theorem rawToUser_full_sectors_witness :
    (List.replicate 2352 (0:Nat)).length = 1 * 2352 ∧
    ((bin_to_iso_bytes 2352 (List.replicate 2352 0)).length = 1 * 2048 ∧
      ∀ k, k < 1 →
        ((bin_to_iso_bytes 2352 (List.replicate 2352 0)).drop (k * 2048)).take 2048 =
          ((List.replicate 2352 (0:Nat)).drop (k * 2352 + 16)).take 2048) :=
  ⟨by rw [List.length_replicate], rawToUser_full_sectors 1 (List.replicate 2352 0)
    (by rw [List.length_replicate])⟩

/-! ## C2: user → raw → user round trip -/

/-- Extracting the payload slice of a synthesized frame recovers a full
2048-byte chunk exactly. -/
theorem rawToUser_userToRaw (c : List Nat) (hc : c.length = 2048) :
    rawToUserChunk (userToRawChunk c) = c := by
  rw [userToRawChunk_eq]
  show ((List.replicate 16 (0:Nat) ++ c ++ List.replicate 288 0).drop 16).take 2048 = c
  rw [List.append_assoc]
  have hdrop := List.drop_left (List.replicate 16 (0:Nat)) (c ++ List.replicate 288 0)
  rw [List.length_replicate] at hdrop
  rw [hdrop]
  have htake := List.take_left c (List.replicate 288 (0:Nat))
  rw [hc] at htake
  exact htake

/-- **C2 (amended).** The round trip `userToRaw` then `rawToUser`
reproduces the payload exactly whenever the payload length is a multiple
of 2048 (the chunking the loop actually sees on a whole number of
blocks). -/
theorem roundTrip_payload (N : Nat) :
    ∀ src : List Nat, src.length = N * 2048 →
      bin_to_iso_bytes 2352 (iso_to_bin_bytes src) = src := by
  induction N with
  | zero =>
    intro src h
    have hnil : src = [] := List.eq_nil_of_length_eq_zero (by omega)
    subst hnil
    rfl
  | succ N ih =>
    intro src h
    have hne : src ≠ [] := by
      intro hnil
      rw [hnil] at h
      simp only [List.length_nil] at h
      omega
    have htklen : (src.take 2048).length = 2048 := by
      rw [List.length_take]
      omega
    have hframelen : (userToRawChunk (src.take 2048)).length = 2352 := by
      rw [userToRawChunk_length, htklen]
    rw [iso_to_bin_bytes_cons src hne]
    have hsplit : bin_to_iso_bytes 2352
        (userToRawChunk (src.take 2048) ++ iso_to_bin_bytes (src.drop 2048)) =
        rawToUserChunk (userToRawChunk (src.take 2048)) ++
          bin_to_iso_bytes 2352 (iso_to_bin_bytes (src.drop 2048)) := by
      unfold bin_to_iso_bytes
      rw [chunks_append_full 2352 (by norm_num) _ _ hframelen, List.map_cons,
        List.flatten_cons, if_pos rfl]
    rw [hsplit, rawToUser_userToRaw (src.take 2048) htklen,
      ih (src.drop 2048) (by simp only [List.length_drop]; omega)]
    exact List.take_append_drop 2048 src

set_option maxRecDepth 40000 in
/-- Counterexample to C2 as stated: a 1-byte payload does not round-trip
— the short final chunk comes back with 288 extra zero bytes. -/
theorem roundTrip_counterexample :
    bin_to_iso_bytes 2352 (iso_to_bin_bytes [7]) = 7 :: List.replicate 288 0 ∧
    bin_to_iso_bytes 2352 (iso_to_bin_bytes [7]) ≠ [7] := by
  constructor
  · decide
  · decide

/-- Witness for the amended C2 at `N = 1` on a concrete 2048-byte payload. -/
theorem roundTrip_payload_witness :
    (List.replicate 2048 (9:Nat)).length = 1 * 2048 ∧
    bin_to_iso_bytes 2352 (iso_to_bin_bytes (List.replicate 2048 9)) =
      List.replicate 2048 9 :=
  ⟨by rw [List.length_replicate], roundTrip_payload 1 (List.replicate 2048 9)
    (by rw [List.length_replicate])⟩

/-! ## C10 / C7: frame synthesis, full and short chunks -/

/-- **C10.** For a source of `2048*N + L` bytes with `0 < L < 2048`,
`iso_to_bin` writes `N` full 2352-byte frames followed by a final frame
of exactly `L + 304` bytes (16 leading zeros, the `L` payload bytes,
288 trailing zeros): the slice assignment shrinks the last bytearray, so
the output length is not a multiple of 2352. -/
theorem userToRaw_short_tail (N : Nat) :
    ∀ (L : Nat) (src : List Nat), src.length = 2048 * N + L → 0 < L → L < 2048 →
      (iso_to_bin_bytes src).length = N * 2352 + (L + 304) ∧
      (∀ k, k < N →
        ((iso_to_bin_bytes src).drop (k * 2352)).take 2352 =
          List.replicate 16 0 ++ (src.drop (2048 * k)).take 2048 ++ List.replicate 288 0) ∧
      (iso_to_bin_bytes src).drop (N * 2352) =
        List.replicate 16 0 ++ src.drop (2048 * N) ++ List.replicate 288 0 ∧
      ¬ (2352 ∣ (iso_to_bin_bytes src).length) := by
  induction N with
  | zero =>
    intro L src h hL1 hL2
    have hne : src ≠ [] := by
      intro hnil
      rw [hnil] at h
      simp only [List.length_nil] at h
      omega
    have hlen : src.length ≤ 2048 := by omega
    have hsingle : iso_to_bin_bytes src = userToRawChunk src := by
      unfold iso_to_bin_bytes
      rw [chunks_short 2048 src hne hlen]
      simp only [List.map_cons, List.map_nil, List.flatten_cons, List.flatten_nil,
        List.append_nil]
    refine ⟨?_, ?_, ?_, ?_⟩
    · rw [hsingle, userToRawChunk_length]
      omega
    · intro k hk
      exact absurd hk (Nat.not_lt_zero k)
    · rw [hsingle, userToRawChunk_eq]
      simp only [Nat.zero_mul, List.drop_zero, Nat.mul_zero]
    · rw [hsingle, userToRawChunk_length]
      omega
  | succ N ih =>
    intro L src h hL1 hL2
    have hne : src ≠ [] := by
      intro hnil
      rw [hnil] at h
      simp only [List.length_nil] at h
      omega
    have htklen : (src.take 2048).length = 2048 := by
      rw [List.length_take]
      omega
    have hframelen : (userToRawChunk (src.take 2048)).length = 2352 := by
      rw [userToRawChunk_length, htklen]
    have hdroplen : (src.drop 2048).length = 2048 * N + L := by
      simp only [List.length_drop]
      omega
    obtain ⟨ih1, ih2, ih3, ih4⟩ := ih L (src.drop 2048) hdroplen hL1 hL2
    rw [iso_to_bin_bytes_cons src hne]
    refine ⟨?_, ?_, ?_, ?_⟩
    · rw [List.length_append, hframelen, ih1]
      ring
    · intro k hk
      cases k with
      | zero =>
        have htake : ((userToRawChunk (src.take 2048) ++
            iso_to_bin_bytes (src.drop 2048))).take 2352 = userToRawChunk (src.take 2048) := by
          have h0 := List.take_left (userToRawChunk (src.take 2048))
            (iso_to_bin_bytes (src.drop 2048))
          rw [hframelen] at h0
          exact h0
        simp only [Nat.zero_mul, List.drop_zero, Nat.mul_zero]
        rw [htake, userToRawChunk_eq]
      | succ k =>
        have hdropapp : (userToRawChunk (src.take 2048) ++
            iso_to_bin_bytes (src.drop 2048)).drop ((k + 1) * 2352) =
            (iso_to_bin_bytes (src.drop 2048)).drop (k * 2352) := by
          have h0 : (userToRawChunk (src.take 2048) ++
              iso_to_bin_bytes (src.drop 2048)).drop
                ((userToRawChunk (src.take 2048)).length + k * 2352) =
              (iso_to_bin_bytes (src.drop 2048)).drop (k * 2352) :=
            List.drop_append (k * 2352)
          rw [hframelen] at h0
          rw [← h0]
          congr 1
          ring
        rw [hdropapp, ih2 k (by omega), List.drop_drop,
          show 2048 + 2048 * k = 2048 * (k + 1) from by ring]
    · have hdropapp : (userToRawChunk (src.take 2048) ++
          iso_to_bin_bytes (src.drop 2048)).drop ((N + 1) * 2352) =
          (iso_to_bin_bytes (src.drop 2048)).drop (N * 2352) := by
        have h0 : (userToRawChunk (src.take 2048) ++
            iso_to_bin_bytes (src.drop 2048)).drop
              ((userToRawChunk (src.take 2048)).length + N * 2352) =
            (iso_to_bin_bytes (src.drop 2048)).drop (N * 2352) :=
          List.drop_append (N * 2352)
        rw [hframelen] at h0
        rw [← h0]
        congr 1
        ring
      rw [hdropapp, ih3, List.drop_drop,
        show 2048 + 2048 * N = 2048 * (N + 1) from by ring]
    · rw [List.length_append, hframelen, ih1]
      intro hdvd
      omega

/-- Witness for C10 at `N = 1`, `L = 1` on a concrete 2049-byte source. -/
theorem userToRaw_short_tail_witness :
    (List.replicate 2049 (3:Nat)).length = 2048 * 1 + 1 ∧ 0 < 1 ∧ 1 < 2048 ∧
    ((iso_to_bin_bytes (List.replicate 2049 3)).length = 1 * 2352 + (1 + 304) ∧
      (∀ k, k < 1 →
        ((iso_to_bin_bytes (List.replicate 2049 3)).drop (k * 2352)).take 2352 =
          List.replicate 16 0 ++ ((List.replicate 2049 (3:Nat)).drop (2048 * k)).take 2048 ++
            List.replicate 288 0) ∧
      (iso_to_bin_bytes (List.replicate 2049 3)).drop (1 * 2352) =
        List.replicate 16 0 ++ (List.replicate 2049 (3:Nat)).drop (2048 * 1) ++
          List.replicate 288 0 ∧
      ¬ (2352 ∣ (iso_to_bin_bytes (List.replicate 2049 3)).length)) :=
  ⟨by rw [List.length_replicate], by norm_num, by norm_num,
    userToRaw_short_tail 1 1 (List.replicate 2049 3) (by rw [List.length_replicate])
      (by norm_num) (by norm_num)⟩

/-- **C7 (amended).** Each chunk read from the source yields exactly one
frame `[16 zeros][chunk][288 zeros]`, written to the destination in
source order; a full 2048-byte chunk gives a frame of exactly 2352
bytes, but a short final chunk of `L` bytes gives a frame of only
`304 + L` bytes. -/
theorem userToRaw_frames (src : List Nat) :
    iso_to_bin_bytes src = ((chunks 2048 src).map userToRawChunk).flatten ∧
    (chunks 2048 src).flatten = src ∧
    ∀ data, data ∈ chunks 2048 src →
      userToRawChunk data = List.replicate 16 0 ++ data ++ List.replicate 288 0 ∧
      (userToRawChunk data).length = 304 + data.length ∧
      (data.length = 2048 → (userToRawChunk data).length = 2352) := by
  refine ⟨rfl, flatten_chunks 2048 (by norm_num) src, ?_⟩
  intro data _
  refine ⟨userToRawChunk_eq data, userToRawChunk_length data, ?_⟩
  intro h2048
  rw [userToRawChunk_length, h2048]

set_option maxRecDepth 40000 in
/-- Counterexample to C7 as stated: on the 1-byte source `[5]` the single
written frame is the whole output and has 305 bytes, not 2352. -/
theorem userToRaw_frame_counterexample :
    iso_to_bin_bytes [5] = userToRawChunk [5] ∧
    (userToRawChunk [5]).length = 305 ∧
    (userToRawChunk [5]).length ≠ 2352 := by
  refine ⟨by decide, by decide, by decide⟩

/-- Witness for the amended C7 on the concrete chunk `[5]` of the
1-byte source `[5]`. -/
theorem userToRaw_frames_witness :
    ([5] ∈ chunks 2048 [5]) ∧
    (userToRawChunk [5] = List.replicate 16 0 ++ [5] ++ List.replicate 288 0 ∧
     (userToRawChunk [5]).length = 304 + [5].length ∧
     ([5].length = 2048 → (userToRawChunk [5]).length = 2352)) :=
  ⟨by decide, (userToRaw_frames [5]).2.2 [5] (by decide)⟩

/-! ## C8: short final chunk is end-of-stream, not an error -/

/-- **C8.** On a source whose length is not a multiple of 2352 the
conversion still succeeds: no error is produced, the output is written,
and the chunking consumes the whole stream, the short final chunk
included, before the loop stops. -/
theorem rawToUser_short_input_ok (src : List Nat) (h : ¬ (2352 ∣ src.length)) :
    (bin_to_iso_run src 2352 none false false false).1 = none ∧
    (bin_to_iso_run src 2352 none false false false).2 =
      some (bin_to_iso_bytes 2352 src) ∧
    (chunks 2352 src).flatten = src :=
  ⟨rfl, rfl, flatten_chunks 2352 (by norm_num) src⟩

/-- Witness for C8 on the concrete 3-byte source `[1, 2, 3]`. -/
theorem rawToUser_short_input_ok_witness :
    ¬ ((2352:Nat) ∣ ([1, 2, 3] : List Nat).length) ∧
    ((bin_to_iso_run [1, 2, 3] 2352 none false false false).1 = none ∧
     (bin_to_iso_run [1, 2, 3] 2352 none false false false).2 =
       some (bin_to_iso_bytes 2352 [1, 2, 3]) ∧
     (chunks 2352 [1, 2, 3]).flatten = [1, 2, 3]) :=
  ⟨by decide, rawToUser_short_input_ok [1, 2, 3] (by decide)⟩

/-! ## C6: existing destination with policy Fail is left untouched -/

/-- **C6.** When the destination already exists and neither `-f` nor
`-a` is given, both converters report `destinationExists` and leave
every destination file exactly as it was: the overwrite check runs
before the destination is opened for writing. -/
theorem overwrite_fail_no_write (src old : List Nat) (sectorSize : Nat)
    (oldCue : List Char) (binName : List Char) (answer : Bool) :
    bin_to_iso_run src sectorSize (some old) false false answer =
      (some Err.destinationExists, some old) ∧
    iso_to_bin_run src binName (some old) none false false answer =
      (some Err.destinationExists, some old, none) ∧
    iso_to_bin_run src binName none (some oldCue) false false answer =
      (some Err.destinationExists, none, some oldCue) ∧
    iso_to_bin_run src binName (some old) (some oldCue) false false answer =
      (some Err.destinationExists, some old, some oldCue) :=
  ⟨rfl, rfl, rfl, rfl⟩

/-! ## CUE parser machinery -/

/-- A CUE line that is neither a FILE nor a TRACK declaration (after
stripping and uppercasing): `parse_cue` ignores it (INDEX, REM,
blank lines, …). -/
def isCueNeutral (l : List Char) : Prop :=
  startsWithL ("FILE".toList) (pyLine l) = false ∧
  startsWithL ("TRACK".toList) (pyLine l) = false

theorem procLine_neutral (st : ParseState) (l : List Char) (h : isCueNeutral l) :
    procLine st l = .ok st := by
  simp only [procLine, h.1, h.2, Bool.false_eq_true, if_false]

theorem scanLines_neutral (st : ParseState) (ls : List (List Char))
    (h : ∀ l ∈ ls, isCueNeutral l) : scanLines st ls = .ok st := by
  induction ls generalizing st with
  | nil => rfl
  | cons l ls ih =>
    have h1 := procLine_neutral st l (h l (List.mem_cons_self l ls))
    simp only [scanLines, h1]
    exact ih st (fun x hx => h x (List.mem_cons_of_mem l hx))

theorem scanLines_append_ok (st st2 : ParseState) (a b : List (List Char))
    (h : scanLines st a = .ok st2) :
    scanLines st (a ++ b) = scanLines st2 b := by
  induction a generalizing st with
  | nil =>
    have : st = st2 := by
      simpa only [scanLines, Except.ok.injEq] using h
    rw [this]
    rfl
  | cons l a ih =>
    cases hp : procLine st l with
    | error e =>
      rw [scanLines, hp] at h
      exact absurd h (by simp)
    | ok stm =>
      rw [scanLines, hp] at h
      show (match procLine st l with
        | .error e => .error e
        | .ok st3 => scanLines st3 (a ++ b)) = scanLines st2 b
      rw [hp]
      exact ih stm h

/-- Processing the line `FILE "x.bin" BINARY` stores the quoted name of
the *uppercased* line: `X.BIN`. -/
theorem procLine_file_lower (st : ParseState) :
    procLine st ("FILE \"x.bin\" BINARY".toList) = .ok (some ("X.BIN".toList), st.2) := rfl

theorem procLine_fileA (st : ParseState) :
    procLine st ("FILE \"A.BIN\" BINARY".toList) = .ok (some ("A.BIN".toList), st.2) := rfl

theorem procLine_fileB (st : ParseState) :
    procLine st ("FILE \"B.BIN\" BINARY".toList) = .ok (some ("B.BIN".toList), st.2) := rfl

theorem procLine_track2352 (st : ParseState) :
    procLine st ("TRACK 01 MODE1/2352".toList) = .ok (st.1, some 2352) := rfl

theorem procLine_track2048 (st : ParseState) :
    procLine st ("TRACK 02 MODE1/2048".toList) = .ok (st.1, some 2048) := rfl

/-! ## C3: parsing a valid single-FILE/single-TRACK sheet -/

/-- Counterexample to C3 as stated: the sheet `FILE "x.bin" BINARY` /
`TRACK 01 MODE1/2352` parses successfully, but the returned name is the
uppercased `X.BIN`, not the quoted substring `x.bin`. -/
theorem parse_cue_uppercase_counterexample :
    parse_cue ["FILE \"x.bin\" BINARY".toList, "TRACK 01 MODE1/2352".toList] =
      .ok ("X.BIN".toList, 2352) ∧
    ("X.BIN".toList : List Char) ≠ "x.bin".toList :=
  ⟨rfl, by decide⟩

/-- **C3 (amended).** For every CUE sheet made of the line
`FILE "x.bin" BINARY`, the line `TRACK 01 MODE1/2352`, and otherwise
only lines that declare neither FILE nor TRACK, `parse_cue` returns the
descriptor `(X.BIN, 2352)` — the file name is the quoted substring of
the *uppercased* line. -/
theorem parse_cue_valid_raw2352 (pre mid post : List (List Char))
    (h1 : ∀ l ∈ pre, isCueNeutral l) (h2 : ∀ l ∈ mid, isCueNeutral l)
    (h3 : ∀ l ∈ post, isCueNeutral l) :
    parse_cue (pre ++ ("FILE \"x.bin\" BINARY".toList ::
        (mid ++ ("TRACK 01 MODE1/2352".toList :: post)))) =
      .ok ("X.BIN".toList, 2352) := by
  have e1 := scanLines_append_ok (none, none) (none, none) pre
    ("FILE \"x.bin\" BINARY".toList :: (mid ++ ("TRACK 01 MODE1/2352".toList :: post)))
    (scanLines_neutral (none, none) pre h1)
  have e2 : scanLines ((none, none) : ParseState)
      ("FILE \"x.bin\" BINARY".toList :: (mid ++ ("TRACK 01 MODE1/2352".toList :: post))) =
      scanLines (some ("X.BIN".toList), none) (mid ++ ("TRACK 01 MODE1/2352".toList :: post)) := by
    simp only [scanLines, procLine_file_lower]
  have e3 := scanLines_append_ok (some ("X.BIN".toList), none) (some ("X.BIN".toList), none)
    mid ("TRACK 01 MODE1/2352".toList :: post)
    (scanLines_neutral (some ("X.BIN".toList), none) mid h2)
  have e4 : scanLines ((some ("X.BIN".toList), none) : ParseState)
      ("TRACK 01 MODE1/2352".toList :: post) =
      scanLines (some ("X.BIN".toList), some 2352) post := by
    simp only [scanLines, procLine_track2352]
  have e5 := scanLines_neutral ((some ("X.BIN".toList), some 2352) : ParseState) post h3
  unfold parse_cue
  rw [e1, e2, e3, e4, e5]
  rfl

/-- Witness for the amended C3 on the minimal two-line sheet. -/
theorem parse_cue_valid_raw2352_witness :
    (∀ l ∈ ([] : List (List Char)), isCueNeutral l) ∧
    parse_cue (([] : List (List Char)) ++ ("FILE \"x.bin\" BINARY".toList ::
        (([] : List (List Char)) ++ ("TRACK 01 MODE1/2352".toList :: ([] : List (List Char)))))) =
      .ok ("X.BIN".toList, 2352) :=
  ⟨fun l hl => absurd hl (List.not_mem_nil l),
    parse_cue_valid_raw2352 [] [] []
      (fun l hl => absurd hl (List.not_mem_nil l))
      (fun l hl => absurd hl (List.not_mem_nil l))
      (fun l hl => absurd hl (List.not_mem_nil l))⟩

/-! ## C4: duplicate FILE/TRACK declarations are not rejected -/

/-- Counterexample to C4: a sheet with two FILE lines (and one with two
TRACK lines) is not treated as invalid — `parse_cue` returns a
descriptor, built from the *last* FILE name and the *last* recognized
mode. -/
theorem parse_cue_duplicates_counterexample :
    parse_cue ["FILE \"A.BIN\" BINARY".toList, "FILE \"B.BIN\" BINARY".toList,
        "TRACK 01 MODE1/2352".toList] = .ok ("B.BIN".toList, 2352) ∧
    parse_cue ["FILE \"A.BIN\" BINARY".toList, "TRACK 01 MODE1/2352".toList,
        "TRACK 02 MODE1/2048".toList] = .ok ("A.BIN".toList, 2048) :=
  ⟨rfl, rfl⟩

/-- **C4 (amended).** `parse_cue` does not validate uniqueness: with
several FILE declarations the last quoted name wins, and with several
recognized TRACK declarations the last mode wins; the sheet still
yields a descriptor. -/
theorem parse_cue_duplicates_last_wins (pre mid1 mid2 post : List (List Char))
    (h1 : ∀ l ∈ pre, isCueNeutral l) (h2 : ∀ l ∈ mid1, isCueNeutral l)
    (h3 : ∀ l ∈ mid2, isCueNeutral l) (h4 : ∀ l ∈ post, isCueNeutral l) :
    parse_cue (pre ++ ("FILE \"A.BIN\" BINARY".toList ::
        (mid1 ++ ("FILE \"B.BIN\" BINARY".toList ::
          (mid2 ++ ("TRACK 01 MODE1/2352".toList :: post)))))) =
      .ok ("B.BIN".toList, 2352) ∧
    parse_cue (pre ++ ("FILE \"A.BIN\" BINARY".toList ::
        (mid1 ++ ("TRACK 01 MODE1/2352".toList ::
          (mid2 ++ ("TRACK 02 MODE1/2048".toList :: post)))))) =
      .ok ("A.BIN".toList, 2048) := by
  constructor
  · have e1 := scanLines_append_ok (none, none) (none, none) pre
      ("FILE \"A.BIN\" BINARY".toList :: (mid1 ++ ("FILE \"B.BIN\" BINARY".toList ::
        (mid2 ++ ("TRACK 01 MODE1/2352".toList :: post)))))
      (scanLines_neutral (none, none) pre h1)
    have e2 : scanLines ((none, none) : ParseState)
        ("FILE \"A.BIN\" BINARY".toList :: (mid1 ++ ("FILE \"B.BIN\" BINARY".toList ::
          (mid2 ++ ("TRACK 01 MODE1/2352".toList :: post))))) =
        scanLines (some ("A.BIN".toList), none) (mid1 ++ ("FILE \"B.BIN\" BINARY".toList ::
          (mid2 ++ ("TRACK 01 MODE1/2352".toList :: post)))) := by
      simp only [scanLines, procLine_fileA]
    have e3 := scanLines_append_ok (some ("A.BIN".toList), none) (some ("A.BIN".toList), none)
      mid1 ("FILE \"B.BIN\" BINARY".toList :: (mid2 ++ ("TRACK 01 MODE1/2352".toList :: post)))
      (scanLines_neutral (some ("A.BIN".toList), none) mid1 h2)
    have e4 : scanLines ((some ("A.BIN".toList), none) : ParseState)
        ("FILE \"B.BIN\" BINARY".toList :: (mid2 ++ ("TRACK 01 MODE1/2352".toList :: post))) =
        scanLines (some ("B.BIN".toList), none)
          (mid2 ++ ("TRACK 01 MODE1/2352".toList :: post)) := by
      simp only [scanLines, procLine_fileB]
    have e5 := scanLines_append_ok (some ("B.BIN".toList), none) (some ("B.BIN".toList), none)
      mid2 ("TRACK 01 MODE1/2352".toList :: post)
      (scanLines_neutral (some ("B.BIN".toList), none) mid2 h3)
    have e6 : scanLines ((some ("B.BIN".toList), none) : ParseState)
        ("TRACK 01 MODE1/2352".toList :: post) =
        scanLines (some ("B.BIN".toList), some 2352) post := by
      simp only [scanLines, procLine_track2352]
    have e7 := scanLines_neutral ((some ("B.BIN".toList), some 2352) : ParseState) post h4
    unfold parse_cue
    rw [e1, e2, e3, e4, e5, e6, e7]
    rfl
  · have e1 := scanLines_append_ok (none, none) (none, none) pre
      ("FILE \"A.BIN\" BINARY".toList :: (mid1 ++ ("TRACK 01 MODE1/2352".toList ::
        (mid2 ++ ("TRACK 02 MODE1/2048".toList :: post)))))
      (scanLines_neutral (none, none) pre h1)
    have e2 : scanLines ((none, none) : ParseState)
        ("FILE \"A.BIN\" BINARY".toList :: (mid1 ++ ("TRACK 01 MODE1/2352".toList ::
          (mid2 ++ ("TRACK 02 MODE1/2048".toList :: post))))) =
        scanLines (some ("A.BIN".toList), none) (mid1 ++ ("TRACK 01 MODE1/2352".toList ::
          (mid2 ++ ("TRACK 02 MODE1/2048".toList :: post)))) := by
      simp only [scanLines, procLine_fileA]
    have e3 := scanLines_append_ok (some ("A.BIN".toList), none) (some ("A.BIN".toList), none)
      mid1 ("TRACK 01 MODE1/2352".toList :: (mid2 ++ ("TRACK 02 MODE1/2048".toList :: post)))
      (scanLines_neutral (some ("A.BIN".toList), none) mid1 h2)
    have e4 : scanLines ((some ("A.BIN".toList), none) : ParseState)
        ("TRACK 01 MODE1/2352".toList :: (mid2 ++ ("TRACK 02 MODE1/2048".toList :: post))) =
        scanLines (some ("A.BIN".toList), some 2352)
          (mid2 ++ ("TRACK 02 MODE1/2048".toList :: post)) := by
      simp only [scanLines, procLine_track2352]
    have e5 := scanLines_append_ok (some ("A.BIN".toList), some 2352)
      (some ("A.BIN".toList), some 2352) mid2 ("TRACK 02 MODE1/2048".toList :: post)
      (scanLines_neutral (some ("A.BIN".toList), some 2352) mid2 h3)
    have e6 : scanLines ((some ("A.BIN".toList), some 2352) : ParseState)
        ("TRACK 02 MODE1/2048".toList :: post) =
        scanLines (some ("A.BIN".toList), some 2048) post := by
      simp only [scanLines, procLine_track2048]
    have e7 := scanLines_neutral ((some ("A.BIN".toList), some 2048) : ParseState) post h4
    unfold parse_cue
    rw [e1, e2, e3, e4, e5, e6, e7]
    rfl

/-- Witness for the amended C4 with no surrounding neutral lines. -/
theorem parse_cue_duplicates_last_wins_witness :
    parse_cue (([] : List (List Char)) ++ ("FILE \"A.BIN\" BINARY".toList ::
        (([] : List (List Char)) ++ ("FILE \"B.BIN\" BINARY".toList ::
          (([] : List (List Char)) ++ ("TRACK 01 MODE1/2352".toList ::
            ([] : List (List Char)))))))) = .ok ("B.BIN".toList, 2352) ∧
    parse_cue (([] : List (List Char)) ++ ("FILE \"A.BIN\" BINARY".toList ::
        (([] : List (List Char)) ++ ("TRACK 01 MODE1/2352".toList ::
          (([] : List (List Char)) ++ ("TRACK 02 MODE1/2048".toList ::
            ([] : List (List Char)))))))) = .ok ("A.BIN".toList, 2048) :=
  parse_cue_duplicates_last_wins [] [] [] []
    (fun l hl => absurd hl (List.not_mem_nil l))
    (fun l hl => absurd hl (List.not_mem_nil l))
    (fun l hl => absurd hl (List.not_mem_nil l))
    (fun l hl => absurd hl (List.not_mem_nil l))

/-! ## C5: parse_cue is not total over its declared error taxonomy -/

/-- **C5 (code bug).** A FILE line with no double quote makes
`line.split('"')[1]` raise an uncaught IndexError: on the one-line sheet
`FILE`, `parse_cue` neither returns a descriptor nor one of the three
declared errors. -/
theorem parse_cue_quoteless_file_crash :
    parse_cue ["FILE".toList] = .error .pythonIndexError ∧
    Err.pythonIndexError ≠ Err.invalidCue ∧
    Err.pythonIndexError ≠ Err.unsupportedTrack ∧
    Err.pythonIndexError ≠ Err.unsupportedSectorMode :=
  ⟨rfl, by decide, by decide, by decide⟩

/-! ## C9: the CUE template the writer emits -/

theorem splitOnChar_ne_nil (sep : Char) (l : List Char) : splitOnChar sep l ≠ [] := by
  cases l with
  | nil => simp [splitOnChar]
  | cons c cs =>
    unfold splitOnChar
    by_cases h : c = sep
    · simp [h]
    · simp only [if_neg h]
      cases hs : splitOnChar sep cs <;> simp

theorem splitOnChar_append (sep : Char) (xs ys : List Char) (h : ∀ a ∈ xs, a ≠ sep) :
    splitOnChar sep (xs ++ ys) = (splitOnChar sep ys).modifyHead (xs ++ ·) := by
  induction xs with
  | nil =>
    simp only [List.nil_append]
    cases hs : splitOnChar sep ys with
    | nil => rfl
    | cons a t => simp [List.modifyHead]
  | cons x xs ih =>
    have hx : x ≠ sep := h x (List.mem_cons_self x xs)
    have hxs : ∀ a ∈ xs, a ≠ sep := fun a ha => h a (List.mem_cons_of_mem x ha)
    simp only [List.cons_append]
    rw [splitOnChar, if_neg hx, ih hxs]
    cases hs : splitOnChar sep ys with
    | nil => exact absurd hs (splitOnChar_ne_nil sep ys)
    | cons a t => simp [List.modifyHead]

/-- Counterexample to C9 as stated: the second line of the emitted sheet
is `  TRACK 01 MODE1/2352` — two leading spaces, not the bare
`TRACK 01 MODE1/2352` the claim lists. -/
theorem cue_writer_template_counterexample :
    (linesOfText (cueText ("GAME.BIN".toList))).get? 1 =
      some ("  TRACK 01 MODE1/2352".toList) ∧
    ("  TRACK 01 MODE1/2352".toList : List Char) ≠ "TRACK 01 MODE1/2352".toList :=
  ⟨rfl, by decide⟩

/-- **C9 (amended).** For every binFileName (containing no newline), the
writer emits exactly the three-line template
`FILE "<binFileName>" BINARY` / `  TRACK 01 MODE1/2352` /
`    INDEX 01 00:00:00` — the TRACK line indented by two spaces, the
INDEX line by four — followed by a final newline. -/
theorem cueText_lines (b : List Char) (h : ∀ c ∈ b, c ≠ '\n') :
    linesOfText (cueText b) =
      ["FILE \"".toList ++ b ++ "\" BINARY".toList,
       "  TRACK 01 MODE1/2352".toList,
       "    INDEX 01 00:00:00".toList,
       []] := by
  unfold linesOfText cueText
  rw [List.append_assoc,
    splitOnChar_append '\n' ("FILE \"".toList) _ (by decide),
    splitOnChar_append '\n' b _ h,
    show splitOnChar '\n'
        ("\" BINARY\n  TRACK 01 MODE1/2352\n    INDEX 01 00:00:00\n".toList) =
      ["\" BINARY".toList, "  TRACK 01 MODE1/2352".toList,
       "    INDEX 01 00:00:00".toList, []] from rfl]
  simp [List.modifyHead, List.append_assoc]

/-- Witness for the amended C9 on the concrete name `GAME.BIN`. -/
theorem cueText_lines_witness :
    (∀ c ∈ ("GAME.BIN".toList : List Char), c ≠ '\n') ∧
    linesOfText (cueText ("GAME.BIN".toList)) =
      ["FILE \"".toList ++ "GAME.BIN".toList ++ "\" BINARY".toList,
       "  TRACK 01 MODE1/2352".toList,
       "    INDEX 01 00:00:00".toList,
       []] :=
  ⟨by decide, cueText_lines ("GAME.BIN".toList) (by decide)⟩

end ConvCueIso
